import Mathlib

/-!
# Verification of the cloud-logging façade

A shallow embedding of `logger.go` (package `cloudlogging`): a structured-logging
façade that forwards leveled entries to a remote backend (Google Cloud Logging)
and falls back to a local line-oriented sink when the remote handle is absent or
the caller's context is done.

Modelling conventions:
* A Go `map[string]string` is embedded as an association list `GoMap` with
  unique keys (the Go map invariant is carried as a `Nodup` hypothesis where a
  property depends on it).  A Go `nil` map ranges like the empty map, so `[]`
  covers both the empty and the absent map.
* Go nilable pointers (`*logging.Logger`, `*logging.Client`) become `Option`.
  The mandatory fallback sink (`*log.Logger backup`, required by the contract)
  is embedded as a sink identity; the lines written through it live in `World`.
* A Go `error` result becomes `Option GoError` (`none` = nil error).
* The side effects of one call (lines printed to the fallback sink, entries
  submitted to the remote logger) are made explicit by threading a `World`.
* A nil-pointer dereference (a Go panic) is modelled by the `Option` result of
  `logStep`: `none` means the call would have dereferenced a nil handle.
-/

set_option autoImplicit false

namespace CloudLogging

/-- A Go error value, reduced to its message (`%v` of an error). -/
abbrev GoError := String

/-- Embedding of `map[string]string`: an association list of key/value pairs. -/
abbrev GoMap := List (String × String)

namespace GoMap

/-- Go map indexing `m[k]` (first entry with the key; keys are unique in a Go map). -/
def lookup : GoMap → String → Option String
  | [], _ => none
  | (k', v) :: rest, k => if k = k' then some v else lookup rest k

/-- Go map assignment `m[k] = v`: replace the value in place if the key is
present, otherwise add the entry. -/
def insert : GoMap → String → String → GoMap
  | [], k, v => [(k, v)]
  | (k', v') :: rest, k, v =>
      if k = k' then (k', v) :: rest else (k', v') :: insert rest k v

/-- The keys of the map, in entry order. -/
def keys (m : GoMap) : List String := m.map Prod.fst

end GoMap

/-- Function `payload` from `logger.go`: make a map, set `"msg" -> msg`, then copy every
entry of `details` over it (so a `details` entry literally keyed `"msg"`
overwrites the message). -/
def payload (msg : String) (details : GoMap) : GoMap :=
  details.foldl (fun acc kv => acc.insert kv.1 kv.2) (GoMap.insert [] "msg" msg)

/-- The four `logging.Severity` values used by `logger.go`. -/
inductive Severity where
  | debug
  | info
  | warning
  | error
deriving DecidableEq, Repr

/-- The remote client library's `Severity.String()`: the proto enum name. -/
def Severity.str : Severity → String
  | .debug => "DEBUG"
  | .info => "INFO"
  | .warning => "WARNING"
  | .error => "ERROR"

/-- The caller's `context.Context`, reduced to the one observation the code
makes of it: whether its `Done()` channel is closed at the moment of the call. -/
structure Ctx where
  done : Bool
deriving DecidableEq, Repr

/-- Function `isDone` from `logger.go`: a single non-blocking poll of `ctx.Done()`
(`select` with a `default` branch, so it never waits). -/
def isDone (ctx : Ctx) : Bool := ctx.done

/-- The remote client handle (`*logging.Client`), as far as this system
observes it: `Close()` returns some fixed result chosen by the collaborator. -/
structure GcpClient where
  closeResult : Option GoError
deriving DecidableEq, Repr

/-- The remote logger handle produced by `client.Logger(loggerName,
logging.CommonLabels(labels))`. -/
structure RemoteLogger where
  name : String
  commonLabels : GoMap
deriving DecidableEq, Repr

/-- The `logging.Entry` as built by `log`: only `Payload` and `Severity` are set. -/
structure Entry where
  payload : GoMap
  severity : Severity
deriving DecidableEq, Repr

/-- The `Logger` struct of `logger.go`.  `backup` is the identity of the
mandatory fallback sink (a `*log.Logger` reference, required by the contract);
the lines written through it are tracked in `World`. -/
structure Logger where
  systemCtx : Ctx
  logger : Option RemoteLogger
  backup : Nat
  gcpClient : Option GcpClient
deriving DecidableEq, Repr

/-- The observable state of one run: the Logger plus what each sink received. -/
structure World where
  lg : Logger
  backupLines : List String
  remoteEntries : List Entry
deriving DecidableEq, Repr

/-- Go `fmt` left-justified width-10 string verb `%-10s`: pad on the right with
spaces to at least 10 characters (no truncation). -/
def padTo10 (s : String) : String :=
  s ++ String.mk (List.replicate (10 - s.length) ' ')

/-- Lexicographic strict order on character lists by code point (the order Go
uses on map keys: byte-wise UTF-8 order, which agrees with code-point order). -/
def charListLt : List Char → List Char → Bool
  | _, [] => false
  | [], _ :: _ => true
  | a :: as, b :: bs =>
      if a.toNat < b.toNat then true
      else if b.toNat < a.toNat then false
      else charListLt as bs

/-- Order `a ≤ b` on strings, byte-wise as Go compares map keys. -/
def strLe (a b : String) : Bool := !(charListLt b.data a.data)

/-- Insert one entry into a key-sorted list of entries (helper for `goMapRepr`). -/
def insertByKey (p : String × String) : GoMap → GoMap
  | [] => [p]
  | q :: rest => if strLe p.1 q.1 then p :: q :: rest else q :: insertByKey p rest

/-- Sort entries by key (Go `fmt` prints map keys in sorted order). -/
def sortByKey : GoMap → GoMap
  | [] => []
  | p :: rest => insertByKey p (sortByKey rest)

/-- Go `fmt` `%v` of a `map[string]string`: `map[k1:v1 k2:v2]`, entries sorted
by key, each as `key:value`, separated by single spaces. -/
def goMapRepr (m : GoMap) : String :=
  "map[" ++ String.intercalate " " ((sortByKey m).map fun p => p.1 ++ ":" ++ p.2) ++ "]"

/-- The fallback line: `Printf("%-10s: %v", severity.String(), data)` applied. -/
def fallbackLine (sev : Severity) (data : GoMap) : String :=
  padTo10 sev.str ++ ": " ++ goMapRepr data

/-- Method `log` from `logger.go`, as a step on the observable world.  Builds the
payload and the entry, then routes: if the remote handle is nil or the context
is done, print one formatted line to the fallback sink; otherwise submit the
entry through the remote handle.  The `Option` result models the Go panic a nil
dereference of `l.logger` would be: `none` means the call dereferenced nil. -/
def logStep (w : World) (severity : Severity) (msg : String) (details : GoMap) :
    Option World :=
  let data := payload msg details
  let entry : Entry := { payload := data, severity := severity }
  if w.lg.logger = none ∨ isDone w.lg.systemCtx then
    some { w with backupLines := w.backupLines ++ [fallbackLine severity data] }
  else
    match w.lg.logger with
    | none => none
    | some _ => some { w with remoteEntries := w.remoteEntries ++ [entry] }

/-- Method `Error` from `logger.go`. -/
def errorCall (w : World) (msg : String) (details : GoMap) : Option World :=
  logStep w .error msg details

/-- Method `Warn` from `logger.go`. -/
def warnCall (w : World) (msg : String) (details : GoMap) : Option World :=
  logStep w .warning msg details

/-- Method `Info` from `logger.go`. -/
def infoCall (w : World) (msg : String) (details : GoMap) : Option World :=
  logStep w .info msg details

/-- Method `Debug` from `logger.go`. -/
def debugCall (w : World) (msg : String) (details : GoMap) : Option World :=
  logStep w .debug msg details

/-- The warning line `NewLogger` prints to the fallback sink when client
acquisition fails. -/
def acquireWarnLine (e : GoError) : String :=
  "WARN: Failed to initialize Google Cloud Logging, falling back to backup logger. Error: " ++ e

/-- Constructor `NewLogger` from `logger.go`.  Here `acquire` is the result of the external
`logging.NewClient` call.  Returns the constructed Logger, the lines written to
the fallback sink during construction, and the returned `error`. -/
def NewLogger (ctx : Ctx) (loggerName : String) (backup : Nat) (labels : GoMap)
    (acquire : Except GoError GcpClient) :
    Logger × List String × Option GoError :=
  match acquire with
  | .error err =>
      ({ systemCtx := ctx, logger := none, backup := backup, gcpClient := none },
       [acquireWarnLine err], none)
  | .ok client =>
      ({ systemCtx := ctx,
         logger := some { name := loggerName, commonLabels := labels },
         backup := backup,
         gcpClient := some client },
       [], none)

/-- Method `Close` from `logger.go`: nil when the client handle is nil, otherwise the
client's own `Close()` result, unmodified.  The Go body assigns no field, so
the Logger itself is returned unchanged by construction of the embedding. -/
def Close (l : Logger) : Option GoError :=
  match l.gcpClient with
  | none => none
  | some c => c.closeResult

/-- Repeated `Close` calls: the sequence of results of `n` successive calls,
together with the final Logger (each call leaves the struct as `Close` does). -/
def closeCalls : Nat → Logger → Logger × List (Option GoError)
  | 0, l => (l, [])
  | n + 1, l =>
      let r := Close l
      let rest := closeCalls n l
      (rest.1, r :: rest.2)

/-- Modelled from the spec: the flat-sequence (variadic) shape of the payload
builder.  This variant of the repository is not under `src/` (the `src/`
`payload` takes only the mapped shape; the variadic shape appears in the
repository's usage examples).  Spec §4.1: consume the tokens as alternating
`(key, value, …)` pairs; an odd trailing key is assigned the sentinel
`"MISSING"`. -/
def pairsOf : List String → List (String × String)
  | [] => []
  | [k] => [(k, "MISSING")]
  | k :: v :: rest => (k, v) :: pairsOf rest

/-- Modelled from the spec: the flat-sequence payload builder.  Injects
`"msg" -> msg`, then consumes the token pairs in order (caller-supplied fields
overwrite, as in the mapped variant under `src/`). -/
def payloadFlat (msg : String) (tokens : List String) : GoMap :=
  (pairsOf tokens).foldl (fun acc kv => acc.insert kv.1 kv.2) (GoMap.insert [] "msg" msg)

/-! ## Map lemmas -/

namespace GoMap

theorem lookup_insert_self (m : GoMap) (k v : String) :
    (m.insert k v).lookup k = some v := by
  induction m with
  | nil => simp [insert, lookup]
  | cons p rest ih =>
      obtain ⟨k', v'⟩ := p
      by_cases h : k = k'
      · simp [insert, lookup, h]
      · simp [insert, lookup, h, ih]

theorem lookup_insert_ne (m : GoMap) (k v a : String) (h : a ≠ k) :
    (m.insert k v).lookup a = m.lookup a := by
  induction m with
  | nil => simp [insert, lookup, h]
  | cons p rest ih =>
      obtain ⟨k', v'⟩ := p
      by_cases hk : k = k'
      · subst hk
        simp [insert, lookup, h]
      · by_cases ha : a = k'
        · simp [insert, lookup, hk, ha]
        · simp [insert, lookup, hk, ha, ih]

theorem mem_keys_insert (m : GoMap) (k v a : String) :
    a ∈ (m.insert k v).keys ↔ a ∈ m.keys ∨ a = k := by
  induction m with
  | nil => simp [insert, keys]
  | cons p rest ih =>
      obtain ⟨k', v'⟩ := p
      by_cases hk : k = k'
      · subst hk
        simp [insert, keys]
        tauto
      · simp [insert, keys, hk] at ih ⊢
        tauto

theorem length_insert (m : GoMap) (k v : String) :
    (m.insert k v).length = if k ∈ m.keys then m.length else m.length + 1 := by
  induction m with
  | nil => simp [insert, keys]
  | cons p rest ih =>
      obtain ⟨k', v'⟩ := p
      by_cases hk : k = k'
      · simp [insert, keys, hk]
      · by_cases hm : k ∈ List.map Prod.fst rest <;>
          simp [insert, keys, hk, ih, Ne.symm hk, hm]

end GoMap

/-! ## Fold lemmas: folding Go map assignment over a list of entries -/

/-- Looking up a key none of the remaining entries carries passes through. -/
theorem lookup_foldl_of_notMem (ps : List (String × String)) (k : String)
    (h : ∀ p ∈ ps, p.1 ≠ k) :
    ∀ acc : GoMap,
      (ps.foldl (fun acc kv => acc.insert kv.1 kv.2) acc).lookup k = acc.lookup k := by
  induction ps with
  | nil => intro acc; rfl
  | cons p rest ih =>
      intro acc
      have hp : p.1 ≠ k := h p (List.mem_cons_self p rest)
      have hrest : ∀ q ∈ rest, q.1 ≠ k := fun q hq => h q (List.mem_cons_of_mem p hq)
      rw [List.foldl_cons, ih hrest, GoMap.lookup_insert_ne _ _ _ _ (Ne.symm hp)]

/-- With unique keys, folding the entries in sets each carried key to its value. -/
theorem lookup_foldl_of_mem (ps : List (String × String)) (k v : String)
    (hnd : (ps.map Prod.fst).Nodup) (hmem : (k, v) ∈ ps) :
    ∀ acc : GoMap,
      (ps.foldl (fun acc kv => acc.insert kv.1 kv.2) acc).lookup k = some v := by
  induction ps with
  | nil => cases hmem
  | cons p rest ih =>
      intro acc
      rw [List.map_cons, List.nodup_cons] at hnd
      rcases List.mem_cons.mp hmem with hhead | htail
      · subst hhead
        have hrest : ∀ q ∈ rest, q.1 ≠ k := by
          intro q hq hqk
          have hmap : q.1 ∈ rest.map Prod.fst := List.mem_map_of_mem Prod.fst hq
          exact hnd.1 (hqk ▸ hmap)
        rw [List.foldl_cons, lookup_foldl_of_notMem rest k hrest,
          GoMap.lookup_insert_self]
      · rw [List.foldl_cons, ih hnd.2 htail]

/-- Membership in the keys of the folded map. -/
theorem mem_keys_foldl (ps : List (String × String)) (a : String) :
    ∀ acc : GoMap,
      (a ∈ (ps.foldl (fun acc kv => acc.insert kv.1 kv.2) acc).keys ↔
        a ∈ acc.keys ∨ a ∈ ps.map Prod.fst) := by
  induction ps with
  | nil => intro acc; simp
  | cons p rest ih =>
      intro acc
      rw [List.foldl_cons, ih, GoMap.mem_keys_insert]
      simp
      tauto

/-- With unique keys among the entries, the size of the folded map is the size
of the accumulator plus the number of entry keys not already present. -/
theorem length_foldl (ps : List (String × String))
    (hnd : (ps.map Prod.fst).Nodup) :
    ∀ acc : GoMap,
      (ps.foldl (fun acc kv => acc.insert kv.1 kv.2) acc).length =
        acc.length + (ps.filter (fun p => !decide (p.1 ∈ acc.keys))).length := by
  induction ps with
  | nil => intro acc; simp
  | cons p rest ih =>
      intro acc
      rw [List.map_cons, List.nodup_cons] at hnd
      rw [List.foldl_cons, ih hnd.2, GoMap.length_insert]
      have hfilter :
          rest.filter (fun q => !decide (q.1 ∈ (acc.insert p.1 p.2).keys)) =
            rest.filter (fun q => !decide (q.1 ∈ acc.keys)) := by
        apply List.filter_congr
        intro q hq
        have hqp : q.1 ≠ p.1 := by
          intro hqk
          exact hnd.1 (hqk ▸ List.mem_map_of_mem Prod.fst hq)
        simp [GoMap.mem_keys_insert, hqp]
      rw [hfilter]
      by_cases hp : p.1 ∈ acc.keys
      · simp [hp, List.filter_cons]
      · simp [hp, List.filter_cons]
        omega

/-- With unique keys, lookup returns the value of the one entry with the key. -/
theorem lookup_eq_of_mem (m : GoMap) (k v : String)
    (hnd : (m.map Prod.fst).Nodup) (h : (k, v) ∈ m) :
    GoMap.lookup m k = some v := by
  induction m with
  | nil => cases h
  | cons p rest ih =>
      obtain ⟨k', v'⟩ := p
      rw [List.map_cons, List.nodup_cons] at hnd
      rcases List.mem_cons.mp h with hhead | htail
      · rw [Prod.mk.injEq] at hhead
        simp [GoMap.lookup, hhead.1, hhead.2]
      · have hk : k ≠ k' := by
          intro hkk
          have hmap : k ∈ rest.map Prod.fst := by
            have : (k, v).1 ∈ rest.map Prod.fst := List.mem_map_of_mem Prod.fst htail
            simpa using this
          exact hnd.1 (hkk ▸ hmap)
        simp [GoMap.lookup, hk, ih hnd.2 htail]

/-- With unique keys, dropping the (at most one) entry keyed `k` shortens the
list by one exactly when `k` is present. -/
theorem length_filter_ne_key (m : GoMap) (k : String)
    (hnd : (m.map Prod.fst).Nodup) :
    (m.filter (fun p => !decide (p.1 = k))).length =
      if k ∈ m.map Prod.fst then m.length - 1 else m.length := by
  induction m with
  | nil => simp
  | cons p rest ih =>
      rw [List.map_cons, List.nodup_cons] at hnd
      by_cases hp : p.1 = k
      · have hk : k ∉ rest.map Prod.fst := hp ▸ hnd.1
        simp [List.filter_cons, hp, ih hnd.2, hk]
      · have hmem : (k ∈ p.1 :: rest.map Prod.fst) ↔ k ∈ rest.map Prod.fst := by
          simp [Ne.symm hp]
        by_cases hk : k ∈ rest.map Prod.fst
        · have hpos : 0 < rest.length := by
            rcases List.exists_of_mem_map hk with ⟨q, hq, _⟩
            exact List.length_pos.mpr (List.ne_nil_of_mem hq)
          simp [List.filter_cons, hp, ih hnd.2, hk, hmem]
          omega
        · simp [List.filter_cons, hp, ih hnd.2, hk, hmem]

/-! ## Claim theorems: payload construction -/

/-- C2: for every message M and mapped field set F (a Go map, so with unique
keys), the payload maps `"msg"` to M unless F itself carries `"msg"` (then F's
value wins), maps every key of F to F's value, and has exactly one entry more
than F unless F carries `"msg"` (then exactly as many). -/
theorem C2_payload_completeness (msg : String) (F : GoMap)
    (hF : (F.map Prod.fst).Nodup) :
    (GoMap.lookup (payload msg F) "msg" =
      if "msg" ∈ F.map Prod.fst then GoMap.lookup F "msg" else some msg) ∧
    (∀ k, k ∈ F.map Prod.fst →
      GoMap.lookup (payload msg F) k = GoMap.lookup F k) ∧
    (payload msg F).length =
      (if "msg" ∈ F.map Prod.fst then F.length else F.length + 1) := by
  have hacc : GoMap.insert [] "msg" msg = [("msg", msg)] := rfl
  refine ⟨?_, ?_, ?_⟩
  · by_cases hm : "msg" ∈ F.map Prod.fst
    · rcases List.exists_of_mem_map hm with ⟨q, hq, hq1⟩
      obtain ⟨k, v⟩ := q
      simp only at hq1
      subst hq1
      rw [if_pos hm]
      unfold payload
      rw [lookup_foldl_of_mem F "msg" v hF hq, lookup_eq_of_mem F "msg" v hF hq]
    · rw [if_neg hm]
      unfold payload
      rw [lookup_foldl_of_notMem F "msg" (fun q hq hqk => hm (hqk ▸ List.mem_map_of_mem Prod.fst hq)),
        hacc]
      rfl
  · intro k hk
    rcases List.exists_of_mem_map hk with ⟨q, hq, hq1⟩
    obtain ⟨k', v⟩ := q
    simp only at hq1
    subst hq1
    unfold payload
    rw [lookup_foldl_of_mem F k' v hF hq, lookup_eq_of_mem F k' v hF hq]
  · unfold payload
    rw [length_foldl F hF, hacc]
    have hfilter :
        F.filter (fun p => !decide (p.1 ∈ GoMap.keys [("msg", msg)])) =
          F.filter (fun p => !decide (p.1 = "msg")) := by
      apply List.filter_congr
      intro q _
      simp [GoMap.keys]
    rw [hfilter, length_filter_ne_key F "msg" hF]
    by_cases hm : "msg" ∈ F.map Prod.fst
    · have hpos : 0 < F.length := by
        rcases List.exists_of_mem_map hm with ⟨q, hq, _⟩
        exact List.length_pos.mpr (List.ne_nil_of_mem hq)
      simp [hm]
      omega
    · simp [hm]
      omega

/-- C2 witness: a concrete field set that both adds a key and collides on
`"msg"`. -/
theorem C2_payload_completeness_witness :
    GoMap.lookup (payload "hello" [("a", "1"), ("msg", "override")]) "msg" =
        some "override" ∧
    GoMap.lookup (payload "hello" [("a", "1"), ("msg", "override")]) "a" =
        some "1" ∧
    (payload "hello" [("a", "1"), ("msg", "override")]).length = 2 := by
  have h := C2_payload_completeness "hello" [("a", "1"), ("msg", "override")]
    (by decide)
  refine ⟨?_, ?_, ?_⟩
  · rw [h.1]
    decide
  · rw [h.2.1 "a" (by decide)]
    decide
  · rw [h.2.2]
    decide

/-- Applying `pairsOf` to an even-length prefix followed by one trailing key: the
trailing key pairs with the sentinel. -/
theorem pairsOf_append_even (k : String) :
    ∀ ts : List String, ts.length % 2 = 0 →
      pairsOf (ts ++ [k]) = pairsOf ts ++ [(k, "MISSING")]
  | [], _ => rfl
  | [a], h => by simp at h
  | a :: b :: rest, h => by
      have hrest : rest.length % 2 = 0 := by
        simp [List.length_cons] at h
        omega
      have ih := pairsOf_append_even k rest hrest
      simp [pairsOf, ih]

/-- C3: the flat-sequence payload builder (modelled from the spec, not under
`src/`) maps the trailing key of an odd-length token sequence to `"MISSING"`
instead of failing. -/
theorem C3_odd_widening (msg : String) (ts : List String) (k : String)
    (h : (ts ++ [k]).length % 2 = 1) :
    GoMap.lookup (payloadFlat msg (ts ++ [k])) k = some "MISSING" := by
  have hts : ts.length % 2 = 0 := by
    simp [List.length_append] at h
    omega
  unfold payloadFlat
  rw [pairsOf_append_even k ts hts, List.foldl_append]
  simp only [List.foldl_cons, List.foldl_nil]
  exact GoMap.lookup_insert_self _ _ _

/-- C3 witness: three tokens, odd, trailing key `"c"`. -/
theorem C3_odd_widening_witness :
    GoMap.lookup (payloadFlat "m" (["a", "b"] ++ ["c"])) "c" = some "MISSING" :=
  C3_odd_widening "m" ["a", "b"] "c" (by decide)

/-- C10: an empty (or absent, since a nil Go map ranges as empty) field map
yields exactly the one-entry payload `{"msg": M}`, and the level call completes
normally (no nil dereference). -/
theorem C10_empty_fields (msg : String) (w : World) (sev : Severity) :
    payload msg [] = [("msg", msg)] ∧ (logStep w sev msg []).isSome = true := by
  refine ⟨rfl, ?_⟩
  unfold logStep
  by_cases h : w.lg.logger = none ∨ isDone w.lg.systemCtx
  · rw [if_pos h]
    rfl
  · rw [if_neg h]
    cases hl : w.lg.logger with
    | none => exact absurd (Or.inl hl) h
    | some rl => rfl

/-! ## Sample instances (shared by the witnesses) -/

/-- A Logger in degraded mode: both remote handles absent. -/
def degradedLogger : Logger :=
  { systemCtx := ⟨false⟩, logger := none, backup := 0, gcpClient := none }

/-- A world around the degraded Logger, with nothing written yet. -/
def degradedWorld : World :=
  { lg := degradedLogger, backupLines := [], remoteEntries := [] }

/-- A client whose release fails. -/
def failingClient : GcpClient := ⟨some "release failed"⟩

/-- A Logger with a live remote handle (over a not-yet-done context). -/
def liveLogger : Logger :=
  { systemCtx := ⟨false⟩, logger := some ⟨"test-logger", []⟩, backup := 0,
    gcpClient := some failingClient }

/-- The live Logger after its context has been cancelled, nothing written yet. -/
def cancelledLiveWorld : World :=
  { lg := { liveLogger with systemCtx := ⟨true⟩ }, backupLines := [],
    remoteEntries := [] }

/-! ## Claim theorems: routing and lifecycle -/

/-- C1: each level call delivers the entry to exactly one sink (never both,
never neither), and to the fallback sink precisely when the remote handle is
absent or the context polls as done; the witness instantiates the particular
case of a live handle under a cancelled context. -/
theorem C1_routing (w : World) (sev : Severity) (msg : String) (details : GoMap)
    (w' : World) (h : logStep w sev msg details = some w') :
    w'.backupLines.length + w'.remoteEntries.length
      = w.backupLines.length + w.remoteEntries.length + 1 ∧
    ((w'.backupLines = w.backupLines ++ [fallbackLine sev (payload msg details)] ∧
      w'.remoteEntries = w.remoteEntries) ↔
        (w.lg.logger = none ∨ isDone w.lg.systemCtx = true)) ∧
    ((w'.remoteEntries = w.remoteEntries ++ [⟨payload msg details, sev⟩] ∧
      w'.backupLines = w.backupLines) ↔
        ¬(w.lg.logger = none ∨ isDone w.lg.systemCtx = true)) := by
  unfold logStep at h
  by_cases hc : w.lg.logger = none ∨ isDone w.lg.systemCtx
  · rw [if_pos hc] at h
    injection h with h
    subst h
    have hc' : w.lg.logger = none ∨ isDone w.lg.systemCtx = true := hc
    refine ⟨by simp only [List.length_append, List.length_cons, List.length_nil]; omega,
      ?_, ?_⟩
    · exact ⟨fun _ => hc', fun _ => ⟨rfl, rfl⟩⟩
    · constructor
      · intro hcontra
        exfalso
        have hlen := congrArg List.length hcontra.1
        simp at hlen
      · intro hneg
        exact absurd hc' hneg
  · rw [if_neg hc] at h
    have hne : w.lg.logger ≠ none := fun hn => hc (Or.inl hn)
    rcases Option.ne_none_iff_exists'.mp hne with ⟨rl, hl⟩
    rw [hl] at h
    injection h with h
    subst h
    have hc' : ¬(w.lg.logger = none ∨ isDone w.lg.systemCtx = true) := hc
    refine ⟨by simp only [List.length_append, List.length_cons, List.length_nil]; omega,
      ?_, ?_⟩
    · constructor
      · intro hcontra
        exfalso
        have hlen := congrArg List.length hcontra.1
        simp at hlen
      · intro hcond
        exact absurd hcond hc'
    · exact ⟨fun _ => hc', fun _ => ⟨rfl, rfl⟩⟩

/-- The world after the C1 witness call: one fallback line, no remote entry. -/
def cancelledAfterError : World :=
  { cancelledLiveWorld with backupLines := ["ERROR     : map[msg:boom]"] }

/-- C1 witness: live remote handle, cancelled context — the call lands on the
fallback sink, not the remote backend. -/
theorem C1_routing_witness :
    cancelledAfterError.backupLines.length + cancelledAfterError.remoteEntries.length
      = cancelledLiveWorld.backupLines.length + cancelledLiveWorld.remoteEntries.length + 1 ∧
    ((cancelledAfterError.backupLines =
        cancelledLiveWorld.backupLines ++ [fallbackLine .error (payload "boom" [])] ∧
      cancelledAfterError.remoteEntries = cancelledLiveWorld.remoteEntries) ↔
        (cancelledLiveWorld.lg.logger = none ∨
          isDone cancelledLiveWorld.lg.systemCtx = true)) ∧
    ((cancelledAfterError.remoteEntries =
        cancelledLiveWorld.remoteEntries ++ [⟨payload "boom" [], .error⟩] ∧
      cancelledAfterError.backupLines = cancelledLiveWorld.backupLines) ↔
        ¬(cancelledLiveWorld.lg.logger = none ∨
          isDone cancelledLiveWorld.lg.systemCtx = true)) :=
  C1_routing cancelledLiveWorld .error "boom" [] cancelledAfterError (by decide)

/-- C4: construction never fails — the returned error is nil for every
acquisition outcome; on acquisition failure the remote handles are permanently
absent, exactly the one warning line is printed to the fallback sink, and every
subsequent level call on the returned Logger lands on the fallback sink. -/
theorem C4_construction_never_fails (ctx : Ctx) (nm : String) (bk : Nat)
    (labels : GoMap) (acquire : Except GoError GcpClient) :
    (NewLogger ctx nm bk labels acquire).2.2 = none ∧
    (∀ err, acquire = .error err →
      (NewLogger ctx nm bk labels acquire).1.logger = none ∧
      (NewLogger ctx nm bk labels acquire).1.gcpClient = none ∧
      (NewLogger ctx nm bk labels acquire).2.1 =
        ["WARN: Failed to initialize Google Cloud Logging, falling back to backup logger. Error: "
          ++ err] ∧
      (∀ (w : World) (sev : Severity) (msg : String) (details : GoMap),
        w.lg = (NewLogger ctx nm bk labels acquire).1 →
          logStep w sev msg details =
            some { w with
                    backupLines :=
                      w.backupLines ++ [fallbackLine sev (payload msg details)] })) := by
  refine ⟨?_, ?_⟩
  · cases acquire <;> rfl
  · intro err heq
    subst heq
    refine ⟨rfl, rfl, rfl, ?_⟩
    intro w sev msg details hw
    have hlog : w.lg.logger = none := by rw [hw]; rfl
    unfold logStep
    rw [if_pos (Or.inl hlog)]

/-- C4 witness: a concrete failed acquisition, followed by one level call. -/
theorem C4_construction_never_fails_witness :
    (NewLogger ⟨false⟩ "test-logger" 0 [] (.error "auth failed")).2.2 = none ∧
    (NewLogger ⟨false⟩ "test-logger" 0 [] (.error "auth failed")).1.logger = none ∧
    (NewLogger ⟨false⟩ "test-logger" 0 [] (.error "auth failed")).2.1 =
      ["WARN: Failed to initialize Google Cloud Logging, falling back to backup logger. Error: auth failed"] ∧
    logStep { lg := (NewLogger ⟨false⟩ "test-logger" 0 [] (.error "auth failed")).1,
              backupLines := [], remoteEntries := [] } .info "m" [] =
      some { lg := (NewLogger ⟨false⟩ "test-logger" 0 [] (.error "auth failed")).1,
             backupLines := [fallbackLine .info (payload "m" [])],
             remoteEntries := [] } := by
  have h := C4_construction_never_fails ⟨false⟩ "test-logger" 0 [] (.error "auth failed")
  have h2 := h.2 "auth failed" rfl
  refine ⟨h.1, h2.1, ?_, ?_⟩
  · rw [h2.2.2.1]
    decide
  · exact h2.2.2.2 _ .info "m" [] rfl

/-- C5: `Close` returns nil when the remote client is absent, and otherwise
returns the client's own release result unmodified. -/
theorem C5_close_contract (l : Logger) :
    (l.gcpClient = none → Close l = none) ∧
    (∀ c, l.gcpClient = some c → Close l = c.closeResult) := by
  constructor
  · intro h
    unfold Close
    rw [h]
  · intro c h
    unfold Close
    rw [h]

/-- C5 witness: a degraded Logger and a live one whose release fails. -/
theorem C5_close_contract_witness :
    Close degradedLogger = none ∧ Close liveLogger = some "release failed" :=
  ⟨(C5_close_contract degradedLogger).1 rfl,
   (C5_close_contract liveLogger).2 failingClient rfl⟩

/-- C6: whenever a call routes to the fallback sink, the written line is the
severity string right-padded to a 10-character field, a literal colon and
space, then the payload's textual map representation. -/
theorem C6_fallback_format (w : World) (sev : Severity) (msg : String)
    (details : GoMap) (w' : World)
    (h : logStep w sev msg details = some w')
    (hc : w.lg.logger = none ∨ isDone w.lg.systemCtx = true) :
    w'.backupLines = w.backupLines ++
      [sev.str ++ String.mk (List.replicate (10 - sev.str.length) ' ')
        ++ ": " ++ goMapRepr (payload msg details)] ∧
    (sev.str ++ String.mk (List.replicate (10 - sev.str.length) ' ')).length
      = 10 := by
  have hc' : w.lg.logger = none ∨ isDone w.lg.systemCtx := hc
  unfold logStep at h
  rw [if_pos hc'] at h
  injection h with h
  subst h
  refine ⟨rfl, ?_⟩
  cases sev <;> decide

/-- The world after the C6 witness call. -/
def degradedAfterError : World :=
  { degradedWorld with backupLines := ["ERROR     : map[k:v msg:boom]"] }

/-- C6 witness: `Error("boom", {"k":"v"})` in degraded mode. -/
theorem C6_fallback_format_witness :
    degradedAfterError.backupLines = degradedWorld.backupLines ++
      [Severity.error.str
        ++ String.mk (List.replicate (10 - Severity.error.str.length) ' ')
        ++ ": " ++ goMapRepr (payload "boom" [("k", "v")])] ∧
    (Severity.error.str
      ++ String.mk (List.replicate (10 - Severity.error.str.length) ' ')).length
      = 10 :=
  C6_fallback_format degradedWorld .error "boom" [("k", "v")] degradedAfterError
    (by decide) (Or.inl rfl)

/-- C7: no level call mutates any field of the Logger — context, remote
handle, fallback sink, and client are identical before and after (the four
level methods are `logStep` at their fixed severities). -/
theorem C7_no_mutation (w : World) (sev : Severity) (msg : String)
    (details : GoMap) (w' : World)
    (h : logStep w sev msg details = some w') :
    w'.lg.systemCtx = w.lg.systemCtx ∧ w'.lg.logger = w.lg.logger ∧
    w'.lg.backup = w.lg.backup ∧ w'.lg.gcpClient = w.lg.gcpClient := by
  unfold logStep at h
  by_cases hc : w.lg.logger = none ∨ isDone w.lg.systemCtx
  · rw [if_pos hc] at h
    injection h with h
    subst h
    exact ⟨rfl, rfl, rfl, rfl⟩
  · rw [if_neg hc] at h
    have hne : w.lg.logger ≠ none := fun hn => hc (Or.inl hn)
    rcases Option.ne_none_iff_exists'.mp hne with ⟨rl, hl⟩
    rw [hl] at h
    injection h with h
    subst h
    exact ⟨rfl, rfl, rfl, rfl⟩

/-- The world after the C7 witness call. -/
def degradedAfterDebug : World :=
  { degradedWorld with backupLines := ["DEBUG     : map[msg:hi]"] }

/-- C7 witness: a concrete Debug call leaves every Logger field unchanged. -/
theorem C7_no_mutation_witness :
    degradedAfterDebug.lg.systemCtx = degradedWorld.lg.systemCtx ∧
    degradedAfterDebug.lg.logger = degradedWorld.lg.logger ∧
    degradedAfterDebug.lg.backup = degradedWorld.lg.backup ∧
    degradedAfterDebug.lg.gcpClient = degradedWorld.lg.gcpClient :=
  C7_no_mutation degradedWorld .debug "hi" [] degradedAfterDebug (by decide)

/-- C8: no operation panics or surfaces an error other than `Close`'s:
construction always returns a nil error, every level call completes (the nil
dereference modelled by `logStep`'s `none` never happens), and any error
`Close` returns is exactly the live client's own release result. -/
theorem C8_no_panic_no_error :
    (∀ (ctx : Ctx) (nm : String) (bk : Nat) (labels : GoMap)
        (acquire : Except GoError GcpClient),
      (NewLogger ctx nm bk labels acquire).2.2 = none) ∧
    (∀ (w : World) (sev : Severity) (msg : String) (details : GoMap),
      (logStep w sev msg details).isSome = true) ∧
    (∀ (l : Logger) (e : GoError), Close l = some e →
      ∃ c, l.gcpClient = some c ∧ c.closeResult = some e) := by
  refine ⟨?_, ?_, ?_⟩
  · intro ctx nm bk labels acquire
    cases acquire <;> rfl
  · intro w sev msg details
    unfold logStep
    by_cases h : w.lg.logger = none ∨ isDone w.lg.systemCtx
    · rw [if_pos h]
      rfl
    · rw [if_neg h]
      cases hl : w.lg.logger with
      | none => exact absurd (Or.inl hl) h
      | some rl => rfl
  · intro l e h
    unfold Close at h
    cases hc : l.gcpClient with
    | none =>
        rw [hc] at h
        cases h
    | some c =>
        rw [hc] at h
        exact ⟨c, rfl, h⟩

/-- C8 witness: concrete construction, level call, and failing close. -/
theorem C8_no_panic_no_error_witness :
    (NewLogger ⟨false⟩ "n" 0 [] (.ok ⟨none⟩)).2.2 = none ∧
    (logStep degradedWorld .info "m" []).isSome = true ∧
    (∃ c, liveLogger.gcpClient = some c ∧ c.closeResult = some "release failed") :=
  ⟨C8_no_panic_no_error.1 ⟨false⟩ "n" 0 [] (.ok ⟨none⟩),
   C8_no_panic_no_error.2.1 degradedWorld .info "m" [],
   C8_no_panic_no_error.2.2 liveLogger "release failed" (by decide)⟩

/-- C9: on a degraded Logger (client absent), `Close` is idempotent — any
number of calls each return nil and leave the struct unchanged. -/
theorem C9_close_idempotent_degraded (l : Logger) (h : l.gcpClient = none)
    (n : Nat) :
    (closeCalls n l).1 = l ∧ ∀ e ∈ (closeCalls n l).2, e = none := by
  induction n with
  | zero =>
      refine ⟨rfl, ?_⟩
      intro e he
      cases he
  | succ n ih =>
      have hclose : Close l = none := by
        unfold Close
        rw [h]
      constructor
      · simpa [closeCalls] using ih.1
      · intro e he
        simp [closeCalls, hclose] at he
        rcases he with he | he
        · exact he
        · exact ih.2 e he

/-- C9 witness: two closes of the degraded Logger. -/
theorem C9_close_idempotent_degraded_witness :
    (closeCalls 2 degradedLogger).1 = degradedLogger ∧
    (closeCalls 2 degradedLogger).2 = [none, none] :=
  ⟨(C9_close_idempotent_degraded degradedLogger rfl 2).1, by decide⟩

end CloudLogging
